import Mathlib

/-
Verification of the newzletter idempotent-publish core and delivery worker.

The Rust source is shallowly embedded: the SQLite database is a record of
table rows, an open transaction is a shadow copy of the database that becomes
the committed state only at commit, and each Rust function of
src/idempotency/persistence.rs, src/routes/admin/newsletter/post.rs and
src/issue_delivery_worker.rs is a Lean function over these states.
Effectful inputs (Utc::now, Uuid::new_v4, the email client outcome, the
SubscriberEmail grammar) are passed as explicit parameters.
-/

namespace Newzletter

/-- A serialized header pair, mirroring struct HeaderPair in
src/idempotency/persistence.rs: the name as a string, the value as raw bytes. -/
structure HeaderPair where
  name : String
  value : List Nat
deriving DecidableEq, Repr

/-- An HTTP response as the idempotency layer sees it: status code, ordered
header list (duplicates allowed), raw body bytes. -/
structure HttpResponse where
  status : Nat
  headers : List HeaderPair
  body : List Nat
deriving DecidableEq, Repr

/-- A row of the idempotency table: the three response columns are NULL while
the record is merely reserved and populated once it is completed. -/
structure IdemRecord where
  user_uuid : String
  idempotency_key : String
  created_at : String
  response_status_code : Option Int
  response_headers : Option (List HeaderPair)
  response_body : Option (List Nat)
deriving DecidableEq, Repr

/-- A row of the newsletter_issues table. -/
structure IssueRow where
  newsletter_issue_uuid : String
  title : String
  text_content : String
  html_content : String
  published_at : String
deriving DecidableEq, Repr

/-- A row of the issue_delivery_queue table. -/
structure QueueRow where
  newsletter_issue_uuid : String
  subscriber_email : String
deriving DecidableEq, Repr

/-- A row of the subscriptions table (only the columns the publish path reads). -/
structure SubscriptionRow where
  email : String
  status : String
deriving DecidableEq, Repr

/-- The database state: one list of rows per table touched by the core. -/
structure DB where
  idempotency : List IdemRecord
  newsletter_issues : List IssueRow
  issue_delivery_queue : List QueueRow
  subscriptions : List SubscriptionRow
deriving DecidableEq, Repr

/-- SELECT the unique idempotency row keyed by (user_uuid, idempotency_key). -/
def findIdem (db : DB) (user key : String) : Option IdemRecord :=
  db.idempotency.find? (fun r => r.user_uuid == user && r.idempotency_key == key)

/-- Character class accepted by http HeaderName parsing in our model
(lowercase token characters, as produced by HeaderName::as_str). -/
def isHeaderNameChar (c : Char) : Bool :=
  c.isLower || c.isDigit || c == '-' || c == '_' || c == '.'

/-- HeaderName::from_bytes succeeds: non-empty, all characters in the class. -/
def validHeaderName (s : String) : Bool :=
  !s.isEmpty && s.toList.all isHeaderNameChar

/-- HeaderValue::from_bytes accepts a byte: horizontal tab, or any byte in
32..=255 other than DEL (so non-text bytes 128..=255 are allowed). -/
def validHeaderValueByte (b : Nat) : Bool :=
  b == 9 || (decide (32 ≤ b) && b != 127 && decide (b ≤ 255))

/-- All header pairs of a serialized header list parse back. -/
def validHeaders (hs : List HeaderPair) : Bool :=
  hs.all (fun p => validHeaderName p.name && p.value.all validHeaderValueByte)

/-- The Rust cast `status.as_u16() as i16` (wrapping conversion to i16). -/
def toI16 (n : Nat) : Int :=
  let m := n % 65536
  if m < 32768 then (m : Int) else (m : Int) - 65536

/-- get_saved_response (src/idempotency/persistence.rs, lines 10-54): fetch the
idempotency row; absent row gives Ok(None); a row whose response columns are
NULL fails to decode (the query asserts them non-null); otherwise rebuild the
response: i64 -> u16 conversion then StatusCode::from_u16 (100..=999), headers
deserialized and appended in order after HeaderName/HeaderValue revalidation,
body bytes taken verbatim. -/
def get_saved_response (db : DB) (key user : String) :
    Except String (Option HttpResponse) :=
  match findIdem db user key with
  | none => .ok none
  | some r =>
    match r.response_status_code, r.response_headers, r.response_body with
    | some sc, some hs, some b =>
      if 0 ≤ sc ∧ sc < 65536 then
        if 100 ≤ sc.toNat ∧ sc.toNat ≤ 999 then
          if validHeaders hs then
            .ok (some { status := sc.toNat, headers := hs, body := b })
          else .error "invalid header name or value"
        else .error "invalid status code"
      else .error "status code out of u16 range"
    | _, _, _ => .error "NULL in a column asserted non-null"

/-- The UPDATE of save_response: populate the response columns of the row keyed
by (user_uuid, idempotency_key). -/
def updateIdem (db : DB) (user key : String) (sc : Int) (hs : List HeaderPair)
    (b : List Nat) : DB :=
  { db with idempotency := db.idempotency.map (fun r =>
      if r.user_uuid == user && r.idempotency_key == key then
        { r with
          response_status_code := some sc
          response_headers := some hs
          response_body := some b }
      else r) }

/-- save_response (src/idempotency/persistence.rs, lines 62-113): serialize the
status code (u16 cast to i16), every header name/value pair in order, and the
body bytes; UPDATE the reserved row inside the still-open transaction, commit,
and return the same response to the caller. The first component is the
committed database, the second the pass-through response. -/
def save_response (txn : DB) (key user : String) (resp : HttpResponse) :
    DB × HttpResponse :=
  let committed := updateIdem txn user key (toI16 resp.status) resp.headers resp.body
  (committed, resp)

/-- The INSERT ... ON CONFLICT DO NOTHING of try_processing, run inside the
transaction: returns the new transaction state and rows_affected. -/
def insertIdemOnConflict (txn : DB) (user key now : String) : DB × Nat :=
  match findIdem txn user key with
  | some _ => (txn, 0)
  | none =>
    ({ txn with idempotency := txn.idempotency ++
        [{ user_uuid := user, idempotency_key := key, created_at := now,
           response_status_code := none, response_headers := none,
           response_body := none }] }, 1)

/-- NextAction (src/idempotency/persistence.rs, lines 115-118). -/
inductive NextAction where
  | ReturnSavedResponse (resp : HttpResponse)
  | StartProcessing (txn : DB)
deriving DecidableEq, Repr

/-- try_processing (src/idempotency/persistence.rs, lines 120-158): begin a
transaction, INSERT the reserved row with ON CONFLICT DO NOTHING; if a row was
inserted return StartProcessing with the open transaction, otherwise read the
saved response from the pool (the committed state) and either replay it or
fail with the saved-response-missing error. -/
def try_processing (db : DB) (key user now : String) :
    Except String NextAction :=
  let txn := db
  let inserted := insertIdemOnConflict txn user key now
  if inserted.2 > 0 then
    .ok (.StartProcessing inserted.1)
  else
    match get_saved_response db key user with
    | .error e => .error e
    | .ok none => .error "We expected a saved response, we did not find it"
    | .ok (some r) => .ok (.ReturnSavedResponse r)

/-- Modelled from the spec: the IdempotencyKey TryFrom validation (its source
file is not among the provided sources; only its callers are). Per the spec a
key is constrained to a non-empty, bounded-length, restricted character set,
rejected with a validation error otherwise before touching storage. The bound
and character set are fixed representatively (50 characters, alphanumeric or
dash) since the spec leaves them abstract. -/
def idempotency_key_try_from (s : String) : Except String String :=
  if s.isEmpty then .error "the idempotency key cannot be empty"
  else if 50 < s.length then .error "the idempotency key is too long"
  else if !(s.toList.all (fun c => c.isAlphanum || c == '-')) then
    .error "the idempotency key holds a disallowed character"
  else .ok s

/-- UTF-8 bytes of an ASCII string (all strings stored by the core are ASCII). -/
def strBytes (s : String) : List Nat :=
  s.toList.map Char.toNat

/-- The 400 Bad Request response produced by e400 (src/utils.rs). -/
def e400Response : HttpResponse :=
  { status := 400, headers := [], body := [] }

/-- The 500 Internal Server Error response produced by e500 (src/utils.rs). -/
def e500Response : HttpResponse :=
  { status := 500, headers := [], body := [] }

/-- Redirect::to applied to /admin/newsletters and turned into a response:
303 See Other with a single location header and an empty body. -/
def redirectResponse : HttpResponse :=
  { status := 303
    headers := [{ name := "location", value := strBytes "/admin/newsletters" }]
    body := [] }

/-- insert_newsletter_issue (src/routes/admin/newsletter/post.rs, lines 24-55):
INSERT one newsletter_issues row with a freshly generated uuid and the current
timestamp, inside the open transaction. -/
def insert_newsletter_issue (txn : DB) (issueUuid title text_content
    html_content now : String) : DB :=
  { txn with newsletter_issues := txn.newsletter_issues ++
      [{ newsletter_issue_uuid := issueUuid, title := title,
         text_content := text_content, html_content := html_content,
         published_at := now }] }

/-- enqueue_delivery_tasks (src/routes/admin/newsletter/post.rs, lines 57-80):
INSERT INTO issue_delivery_queue one row per subscriptions row whose status is
confirmed, inside the same transaction. -/
def enqueue_delivery_tasks (txn : DB) (issueUuid : String) : DB :=
  { txn with issue_delivery_queue := txn.issue_delivery_queue ++
      ((txn.subscriptions.filter (fun s => s.status == "confirmed")).map
        (fun s => { newsletter_issue_uuid := issueUuid,
                    subscriber_email := s.email })) }

/-- The form data of the publish endpoint. -/
structure FormData where
  title : String
  text_content : String
  html_content : String
  idempotency_key : String
deriving DecidableEq, Repr

/-- Outcome of one publish request: the handler returns
Result of Response and Response, so either the success response, the e400
client-error response, or the e500 server-error response. -/
inductive PubOutcome where
  | success (resp : HttpResponse)
  | clientError (resp : HttpResponse)
  | serverError (resp : HttpResponse)
deriving DecidableEq, Repr

/-- A fault-injection point for the fallible storage steps of
publish_newsletter that run between the reservation and the commit. noFail is
the run in which every storage call succeeds. -/
inductive FailPoint where
  | noFail
  | atIssueInsert
  | atEnqueue
  | atSaveResponse
deriving DecidableEq, Repr

/-- publish_newsletter (src/routes/admin/newsletter/post.rs, lines 87-129)
with explicit fault injection on its fallible storage steps. Control flow as
in the source: validate the idempotency key (e400 on failure, before any
storage access), call try_processing (replay a saved response directly),
otherwise insert the issue, enqueue the delivery tasks, and hand the redirect
response to save_response which commits. A failing step drops the open
transaction, rolling it back, and returns e500, so the committed database is
unchanged. Returns the committed database and the outcome. -/
def publish_newsletter_fp (fp : FailPoint) (db : DB) (user : String)
    (form : FormData) (now issueUuid : String) : DB × PubOutcome :=
  match idempotency_key_try_from form.idempotency_key with
  | .error _ => (db, .clientError e400Response)
  | .ok key =>
    match try_processing db key user now with
    | .error _ => (db, .serverError e500Response)
    | .ok (.ReturnSavedResponse saved) => (db, .success saved)
    | .ok (.StartProcessing txn) =>
      if fp = .atIssueInsert then (db, .serverError e500Response)
      else
        let txn1 := insert_newsletter_issue txn issueUuid form.title
          form.text_content form.html_content now
        if fp = .atEnqueue then (db, .serverError e500Response)
        else
          let txn2 := enqueue_delivery_tasks txn1 issueUuid
          if fp = .atSaveResponse then (db, .serverError e500Response)
          else
            let committed := save_response txn2 key user redirectResponse
            (committed.1, .success committed.2)

/-- publish_newsletter on the run in which every storage call succeeds. -/
def publish_newsletter (db : DB) (user : String) (form : FormData)
    (now issueUuid : String) : DB × PubOutcome :=
  publish_newsletter_fp .noFail db user form now issueUuid

/-- ExecutionOutcome (src/issue_delivery_worker.rs, lines 29-32). -/
inductive ExecutionOutcome where
  | TaskCompleted
  | EmptyQueue
deriving DecidableEq, Repr

/-- dequeue_task (src/issue_delivery_worker.rs, lines 87-107): DELETE one
arbitrary issue_delivery_queue row RETURNING its columns, executed directly on
the pool (auto-committed, owned by no surrounding transaction). The SQL picks
an unspecified row; the model determinizes the pick to the head. Empty table
gives none. -/
def dequeue_task (db : DB) : DB × Option QueueRow :=
  match db.issue_delivery_queue with
  | [] => (db, none)
  | t :: rest => ({ db with issue_delivery_queue := rest }, some t)

/-- get_issue (src/issue_delivery_worker.rs, lines 115-131): fetch_one on
newsletter_issues by uuid; a missing row is an error. -/
def get_issue (db : DB) (issueUuid : String) : Except String IssueRow :=
  match db.newsletter_issues.find?
      (fun i => i.newsletter_issue_uuid == issueUuid) with
  | some i => .ok i
  | none => .error "no rows returned by a query that expected at least one row"

/-- Result of one worker attempt: the database afterwards, the send_email
invocations made (recipient paired with the issue row sent), the error lines
logged, and the returned outcome. -/
structure AttemptResult where
  db : DB
  sent : List QueueRow
  logs : List String
  outcome : Except String ExecutionOutcome
deriving Repr

/-- try_execute_task (src/issue_delivery_worker.rs, lines 42-84).
parseOk models SubscriberEmail::parse (the grammar lives outside the provided
sources, so it is an explicit parameter); sendOk models the email client
outcome. Control flow as in the source: dequeue (empty gives EmptyQueue); on
a dequeued task, parse the address; on parse success load the parent issue
(propagating a lookup error) and invoke send_email, logging and dropping a
send failure; on parse failure log and drop. Either outcome after a
successful dequeue is TaskCompleted; the dequeued row is never re-inserted. -/
def try_execute_task (parseOk : String → Bool) (sendOk : String → Bool)
    (db : DB) : AttemptResult :=
  match dequeue_task db with
  | (db1, none) => { db := db1, sent := [], logs := [], outcome := .ok .EmptyQueue }
  | (db1, some t) =>
    if parseOk t.subscriber_email then
      match get_issue db1 t.newsletter_issue_uuid with
      | .error e => { db := db1, sent := [], logs := [], outcome := .error e }
      | .ok _issue =>
        if sendOk t.subscriber_email then
          { db := db1, sent := [t], logs := [], outcome := .ok .TaskCompleted }
        else
          { db := db1, sent := [t]
            logs := ["Failed to deliver issue to a confirmed subscriber. Skipping."]
            outcome := .ok .TaskCompleted }
    else
      { db := db1, sent := []
        logs := ["Skipping a confirmed subscriber. Their stored contact details are invalid"]
        outcome := .ok .TaskCompleted }

/-- Run n successive worker attempts, collecting the outcomes in order. -/
def run_attempts (parseOk sendOk : String → Bool) :
    Nat → DB → DB × List (Except String ExecutionOutcome)
  | 0, db => (db, [])
  | n + 1, db =>
    let r := try_execute_task parseOk sendOk db
    let rest := run_attempts parseOk sendOk n r.db
    (rest.1, r.outcome :: rest.2)

/-- What one iteration of the worker loop decides to do next. -/
inductive LoopControl where
  | continueAfter (sleep_secs : Nat)
  | exitLoop
deriving DecidableEq, Repr

/-- worker_loop (src/issue_delivery_worker.rs, lines 15-27), one iteration:
EmptyQueue sleeps 10 seconds, an error from the attempt sleeps 1 second,
TaskCompleted continues immediately; no arm leaves the loop. -/
def worker_loop_body (outcome : Except String ExecutionOutcome) : LoopControl :=
  match outcome with
  | .ok .EmptyQueue => .continueAfter 10
  | .error _ => .continueAfter 1
  | .ok .TaskCompleted => .continueAfter 0

/-- The loop as a trace: iteration n observes the n-th attempt outcome and
applies the loop body to it. -/
def worker_trace (outcomes : Nat → Except String ExecutionOutcome) (n : Nat) :
    LoopControl :=
  worker_loop_body (outcomes n)

deriving instance DecidableEq for Except

/-- The reserved idempotency row inserted by try_processing. -/
def reservedRecord (user key now : String) : IdemRecord :=
  { user_uuid := user, idempotency_key := key, created_at := now,
    response_status_code := none, response_headers := none,
    response_body := none }

/-- The row after save_response completed it with a response. -/
def completedRecord (user key now : String) (resp : HttpResponse) : IdemRecord :=
  { user_uuid := user, idempotency_key := key, created_at := now,
    response_status_code := some (toI16 resp.status),
    response_headers := some resp.headers,
    response_body := some resp.body }

/-- The issue row inserted by a publish. -/
def issueRowOf (uuid : String) (form : FormData) (now : String) : IssueRow :=
  { newsletter_issue_uuid := uuid, title := form.title,
    text_content := form.text_content, html_content := form.html_content,
    published_at := now }

/-- The delivery tasks enqueued by a publish: one per confirmed subscriber. -/
def confirmedTasks (db : DB) (uuid : String) : List QueueRow :=
  (db.subscriptions.filter (fun s => s.status == "confirmed")).map
    (fun s => { newsletter_issue_uuid := uuid, subscriber_email := s.email })

/-- The transaction state built by the side-effecting publish path before its
commit: reserved-row insert, issue insert, task enqueue, response save. -/
def publishTxn (db : DB) (user key now uuid : String) (form : FormData) : DB :=
  let txn := (insertIdemOnConflict db user key now).1
  let txn1 := insert_newsletter_issue txn uuid form.title form.text_content
    form.html_content now
  let txn2 := enqueue_delivery_tasks txn1 uuid
  (save_response txn2 key user redirectResponse).1

/-- Per-request state in the concurrent model of N publish requests sharing
one (user_id, idempotency_key): waiting to run its INSERT, holding the open
reservation transaction, finished with a response, or terminated by an error. -/
inductive ReqState where
  | start
  | holding (txn : DB)
  | done (resp : HttpResponse)
  | failed
deriving Repr

/-- Global state of the concurrent system: the committed database, every
request's state, and the history variable recording which request committed
the side-effecting transaction. -/
structure CSys (N : Nat) where
  db : DB
  procs : Fin N → ReqState
  committer : Option (Fin N)

/-- All requests waiting, nothing committed. -/
def initSys (N : Nat) (db0 : DB) : CSys N :=
  { db := db0, procs := fun _ => .start, committer := none }

/-- One interleaving step of N concurrent publish requests with the same
user, key and body. The unique constraint on (user_uuid, idempotency_key)
with ON CONFLICT DO NOTHING is the sole guard, as in try_processing: a
request can run its reserving INSERT only when no conflicting uncommitted
insert is open (a conflicting open insert blocks it at the storage level) and
no committed row exists; a reserving request builds the whole side-effecting
transaction privately and publishes it atomically at commit (save_response)
or discards it on rollback; a request whose INSERT affected no row reads the
committed state and replays the saved response, or fails fatally when the
committed row is incomplete. -/
inductive CStep (user key now uuid : String) (form : FormData) {N : Nat} :
    CSys N → CSys N → Prop where
  | reserve (s : CSys N) (i : Fin N)
      (hstart : s.procs i = .start)
      (hnohold : ∀ j t, s.procs j ≠ .holding t)
      (hnorec : findIdem s.db user key = none) :
      CStep user key now uuid form s
        { db := s.db
          procs := Function.update s.procs i
            (.holding (publishTxn s.db user key now uuid form))
          committer := s.committer }
  | commit (s : CSys N) (i : Fin N) (txn : DB)
      (hhold : s.procs i = .holding txn) :
      CStep user key now uuid form s
        { db := txn
          procs := Function.update s.procs i (.done redirectResponse)
          committer := some i }
  | rollback (s : CSys N) (i : Fin N) (txn : DB)
      (hhold : s.procs i = .holding txn) :
      CStep user key now uuid form s
        { db := s.db
          procs := Function.update s.procs i .failed
          committer := s.committer }
  | replay (s : CSys N) (i : Fin N) (resp : HttpResponse)
      (hstart : s.procs i = .start)
      (hget : get_saved_response s.db key user = .ok (some resp)) :
      CStep user key now uuid form s
        { db := s.db
          procs := Function.update s.procs i (.done resp)
          committer := s.committer }
  | lookupFail (s : CSys N) (i : Fin N)
      (hstart : s.procs i = .start)
      (hrec : (findIdem s.db user key).isSome)
      (hget : ∀ resp, get_saved_response s.db key user ≠ .ok (some resp)) :
      CStep user key now uuid form s
        { db := s.db
          procs := Function.update s.procs i .failed
          committer := s.committer }

/-- Reachability of the concurrent system. -/
def CReaches (user key now uuid : String) (form : FormData) {N : Nat}
    (s s' : CSys N) : Prop :=
  Relation.ReflTransGen (CStep user key now uuid form) s s'

/-- A concrete database with a single confirmed subscriber, used in concrete
evaluations of the theorems. -/
def dbSample : DB :=
  { idempotency := [], newsletter_issues := [], issue_delivery_queue := [],
    subscriptions := [{ email := "a@b.com", status := "confirmed" }] }

/-- A concrete publish form with a valid idempotency key, used in concrete
evaluations of the theorems. -/
def formSample : FormData :=
  { title := "t", text_content := "x", html_content := "h",
    idempotency_key := "key-1" }

/-- A concrete database whose queue holds one task for an existing issue,
used in concrete evaluations of the theorems. -/
def dbQueued : DB :=
  { idempotency := [],
    newsletter_issues :=
      [{ newsletter_issue_uuid := "id1", title := "t", text_content := "x",
         html_content := "h", published_at := "t1" }],
    issue_delivery_queue :=
      [{ newsletter_issue_uuid := "id1", subscriber_email := "bad address" }],
    subscriptions := [] }

/-- A concrete database whose queue holds one task pointing at a missing
issue, used in concrete evaluations of the theorems. -/
def dbOrphan : DB :=
  { idempotency := [], newsletter_issues := [],
    issue_delivery_queue :=
      [{ newsletter_issue_uuid := "ghost", subscriber_email := "a@b.com" }],
    subscriptions := [] }

/-- Inductive invariant of the concurrent system started from db0 with no
record for (user, key): before a commit the committed database is untouched
and nobody is done; after a commit the database holds exactly the committed
transaction and the committer is done with the success response; at most one
reservation is ever open, only while nothing is committed; every finished
request holds the success response and implies a commit happened. -/
def CInv (user key now uuid : String) (form : FormData) (db0 : DB) {N : Nat}
    (s : CSys N) : Prop :=
  (s.committer = none → s.db = db0 ∧ ∀ i r, s.procs i ≠ .done r) ∧
  (∀ c, s.committer = some c →
    s.db = publishTxn db0 user key now uuid form ∧
    s.procs c = .done redirectResponse) ∧
  (∀ i t, s.procs i = .holding t →
    t = publishTxn db0 user key now uuid form ∧ s.committer = none ∧
    ∀ j t', s.procs j = .holding t' → j = i) ∧
  (∀ i r, s.procs i = .done r →
    r = redirectResponse ∧ s.committer.isSome = true)

/-! ### List helpers -/

lemma find?_forall_false {α : Type} {p : α → Bool} {l : List α}
    (h : l.find? p = none) : ∀ a ∈ l, p a = false := by
  intro a ha
  have := List.find?_eq_none.mp h a ha
  simpa using this

lemma find?_append_last {α : Type} {p : α → Bool} {l : List α} {x : α}
    (h : l.find? p = none) (hx : p x = true) :
    (l ++ [x]).find? p = some x := by
  have hall := find?_forall_false h
  induction l with
  | nil => simp [List.find?_cons, hx]
  | cons a as ih =>
    have ha : p a = false := hall a (by simp)
    simp only [List.cons_append, List.find?_cons, ha]
    exact ih (by
      rw [List.find?_eq_none]
      intro b hb
      simp [hall b (by simp [hb])]) (fun b hb => hall b (by simp [hb]))

lemma map_ite_of_find?_none {α : Type} {p : α → Bool} {l : List α}
    (h : l.find? p = none) (g : α → α) :
    l.map (fun r => if p r then g r else r) = l := by
  have hall := find?_forall_false h
  induction l with
  | nil => rfl
  | cons a as ih =>
    have ha : p a = false := hall a (by simp)
    have ht : as.find? p = none := by
      rw [List.find?_eq_none]
      intro b hb
      simp [hall b (by simp [hb])]
    simp [ha, ih ht (fun b hb => hall b (by simp [hb]))]

lemma find?_map_ite {α : Type} (p : α → Bool) (g : α → α)
    (hg : ∀ a, p a = true → p (g a) = true) (l : List α) :
    (l.map (fun r => if p r then g r else r)).find? p =
      (l.find? p).map (fun r => if p r then g r else r) := by
  induction l with
  | nil => rfl
  | cons a as ih =>
    by_cases ha : p a = true
    · simp [List.find?_cons, ha, hg a ha]
    · have ha' : p a = false := by simpa using ha
      simp [List.find?_cons, ha', ih]

/-! ### Idempotency-store lemmas -/

lemma findIdem_updateIdem (db : DB) (user key : String) (r : IdemRecord)
    (sc : Int) (hs : List HeaderPair) (b : List Nat)
    (hfound : findIdem db user key = some r) :
    findIdem (updateIdem db user key sc hs b) user key =
      some { r with response_status_code := some sc,
                    response_headers := some hs,
                    response_body := some b } := by
  have hfound0 : db.idempotency.find?
      (fun x => x.user_uuid == user && x.idempotency_key == key) = some r :=
    hfound
  have hr := List.find?_some hfound0
  have hmap := find?_map_ite
    (fun x : IdemRecord => x.user_uuid == user && x.idempotency_key == key)
    (fun x : IdemRecord =>
      { x with response_status_code := some sc,
               response_headers := some hs,
               response_body := some b })
    (fun a ha => ha) db.idempotency
  unfold findIdem updateIdem
  dsimp only
  rw [hmap, hfound0]
  simp only [Option.map_some']
  rw [if_pos hr]

lemma toI16_of_le_999 {n : Nat} (h : n ≤ 999) : toI16 n = (n : Int) := by
  simp [toI16, Nat.mod_eq_of_lt (show n < 65536 by omega),
    show n < 32768 by omega]

lemma get_saved_response_of_found (db : DB) (user key : String)
    (u k c : String) (sc : Int) (hs : List HeaderPair) (b : List Nat)
    (hfound : findIdem db user key =
      some { user_uuid := u, idempotency_key := k, created_at := c,
             response_status_code := some sc, response_headers := some hs,
             response_body := some b })
    (h1 : 0 ≤ sc) (h2 : sc < 65536) (h3 : 100 ≤ sc.toNat)
    (h4 : sc.toNat ≤ 999) (h5 : validHeaders hs = true) :
    get_saved_response db key user =
      .ok (some { status := sc.toNat, headers := hs, body := b }) := by
  unfold get_saved_response
  rw [hfound]
  simp [h1, h2, h3, h4, h5]

lemma get_saved_response_after_save (db : DB) (user key : String)
    (resp : HttpResponse) (r : IdemRecord)
    (h100 : 100 ≤ resp.status) (h999 : resp.status ≤ 999)
    (hh : validHeaders resp.headers = true)
    (hfound : findIdem db user key = some r) :
    get_saved_response (save_response db key user resp).1 key user =
      .ok (some resp) := by
  unfold save_response
  have hfound' := findIdem_updateIdem db user key r (toI16 resp.status)
    resp.headers resp.body hfound
  have hcast : toI16 resp.status = (resp.status : Int) := toI16_of_le_999 h999
  have := get_saved_response_of_found
    (updateIdem db user key (toI16 resp.status) resp.headers resp.body)
    user key r.user_uuid r.idempotency_key r.created_at
    (toI16 resp.status) resp.headers resp.body hfound'
    (by rw [hcast]; positivity)
    (by rw [hcast]; exact_mod_cast (show resp.status < 65536 by omega))
    (by rw [hcast]; simp; omega)
    (by rw [hcast]; simp; omega) hh
  rw [this]
  rw [hcast]
  simp

/-- C4: saving any response (any status in the valid range, any ordered
header list with duplicates and raw byte values, any body bytes) through
complete (save_response) and reading it back through the replay path
(get_saved_response) reconstructs the response exactly — status, header
pairs in order including duplicates, and body bytes — and complete returns
the same response unchanged to its caller. -/
theorem c4_response_round_trip (db : DB) (user key : String)
    (resp : HttpResponse) (r : IdemRecord)
    (h100 : 100 ≤ resp.status) (h999 : resp.status ≤ 999)
    (hh : validHeaders resp.headers = true)
    (hfound : findIdem db user key = some r) :
    (save_response db key user resp).2 = resp ∧
    get_saved_response (save_response db key user resp).1 key user =
      .ok (some resp) :=
  ⟨rfl, get_saved_response_after_save db user key resp r h100 h999 hh hfound⟩

/-- Witness for C4 at a concrete response with a repeated header name and a
non-text byte value, saved over a concrete reserved record. -/
theorem c4_response_round_trip_witness :
    (100 ≤ 207 ∧ 207 ≤ 999 ∧
      validHeaders [{ name := "x-tag", value := [200, 9, 255] },
                    { name := "x-tag", value := [65] }] = true ∧
      findIdem { idempotency := [reservedRecord "u" "k" "t0"],
                 newsletter_issues := [], issue_delivery_queue := [],
                 subscriptions := [] } "u" "k" =
        some (reservedRecord "u" "k" "t0")) ∧
    ((save_response { idempotency := [reservedRecord "u" "k" "t0"],
                      newsletter_issues := [], issue_delivery_queue := [],
                      subscriptions := [] } "k" "u"
        { status := 207,
          headers := [{ name := "x-tag", value := [200, 9, 255] },
                      { name := "x-tag", value := [65] }],
          body := [0, 255, 10] }).2 =
      { status := 207,
        headers := [{ name := "x-tag", value := [200, 9, 255] },
                    { name := "x-tag", value := [65] }],
        body := [0, 255, 10] } ∧
    get_saved_response
      (save_response { idempotency := [reservedRecord "u" "k" "t0"],
                       newsletter_issues := [], issue_delivery_queue := [],
                       subscriptions := [] } "k" "u"
        { status := 207,
          headers := [{ name := "x-tag", value := [200, 9, 255] },
                      { name := "x-tag", value := [65] }],
          body := [0, 255, 10] }).1 "k" "u" =
      .ok (some { status := 207,
                  headers := [{ name := "x-tag", value := [200, 9, 255] },
                              { name := "x-tag", value := [65] }],
                  body := [0, 255, 10] })) :=
  ⟨⟨by decide, by decide, by decide, by decide⟩,
    c4_response_round_trip _ "u" "k" _ (reservedRecord "u" "k" "t0")
      (by decide) (by decide) (by decide) (by decide)⟩

/-! ### try_processing reduction lemmas -/

lemma insertIdemOnConflict_of_some {db : DB} {user key : String}
    {r : IdemRecord} (now : String) (h : findIdem db user key = some r) :
    insertIdemOnConflict db user key now = (db, 0) := by
  unfold insertIdemOnConflict
  rw [h]

lemma insertIdemOnConflict_of_none {db : DB} {user key : String} (now : String)
    (h : findIdem db user key = none) :
    insertIdemOnConflict db user key now =
      ({ db with idempotency := db.idempotency ++ [reservedRecord user key now] },
        1) := by
  unfold insertIdemOnConflict reservedRecord
  rw [h]

lemma try_processing_of_none {db : DB} {user key : String} (now : String)
    (h : findIdem db user key = none) :
    try_processing db key user now = .ok (.StartProcessing
      { db with idempotency := db.idempotency ++ [reservedRecord user key now] }) := by
  simp only [try_processing]
  rw [insertIdemOnConflict_of_none now h]
  simp

lemma try_processing_of_some {db : DB} {user key : String} {r : IdemRecord}
    (now : String) (h : findIdem db user key = some r) :
    try_processing db key user now =
      match get_saved_response db key user with
      | .error e => .error e
      | .ok none => .error "We expected a saved response, we did not find it"
      | .ok (some resp) => .ok (.ReturnSavedResponse resp) := by
  simp only [try_processing]
  rw [insertIdemOnConflict_of_some now h]
  simp

lemma get_saved_response_incomplete {db : DB} {user key : String}
    {r : IdemRecord} (h : findIdem db user key = some r)
    (hinc : r.response_status_code = none ∨ r.response_headers = none ∨
      r.response_body = none) :
    get_saved_response db key user =
      .error "NULL in a column asserted non-null" := by
  unfold get_saved_response
  rw [h]
  obtain ⟨u, k, c, sc, hs, b⟩ := r
  dsimp only at hinc ⊢
  cases sc <;> cases hs <;> cases b <;> first | rfl | simp_all

/-- C5: for every user_id and valid key, try_processing runs the
ON CONFLICT DO NOTHING insert inside a single transaction: an insert that
affects a row yields StartProcessing holding the open transaction with the
reserved row appended; an insert that affects no row looks up the existing
record — a record lacking a completed response makes the call fail with an
error (no retry, no reservation), while a completed record yields the
replayed response. -/
theorem c5_try_processing_cases (db : DB) (user key now : String) :
    (findIdem db user key = none →
      try_processing db key user now = .ok (.StartProcessing
        { db with idempotency :=
            db.idempotency ++ [reservedRecord user key now] })) ∧
    (∀ r, findIdem db user key = some r →
      (r.response_status_code = none ∨ r.response_headers = none ∨
        r.response_body = none) →
      try_processing db key user now =
        .error "NULL in a column asserted non-null") ∧
    (∀ r resp, findIdem db user key = some r →
      get_saved_response db key user = .ok (some resp) →
      try_processing db key user now = .ok (.ReturnSavedResponse resp)) := by
  refine ⟨fun h => try_processing_of_none now h, ?_, ?_⟩
  · intro r hsome hinc
    rw [try_processing_of_some now hsome,
      get_saved_response_incomplete hsome hinc]
  · intro r resp hsome hget
    rw [try_processing_of_some now hsome, hget]

/-- Witness for C5 on a one-record database: a fresh key reserves, an
incomplete record errors, a completed record replays. -/
theorem c5_try_processing_cases_witness :
    (findIdem { idempotency := [reservedRecord "u" "k" "t0"],
                newsletter_issues := [], issue_delivery_queue := [],
                subscriptions := [] } "u" "k" =
      some (reservedRecord "u" "k" "t0") ∧
    (reservedRecord "u" "k" "t0").response_status_code = none) ∧
    try_processing { idempotency := [reservedRecord "u" "k" "t0"],
                     newsletter_issues := [], issue_delivery_queue := [],
                     subscriptions := [] } "k" "u" "t1" =
      .error "NULL in a column asserted non-null" :=
  ⟨⟨by decide, by decide⟩,
    (c5_try_processing_cases
      { idempotency := [reservedRecord "u" "k" "t0"],
        newsletter_issues := [], issue_delivery_queue := [],
        subscriptions := [] } "u" "k" "t1").2.1
      (reservedRecord "u" "k" "t0") (by decide) (Or.inl (by decide))⟩

/-- C8: a publish request whose idempotency key violates the grammar (empty,
over-length, or a disallowed character) is rejected with the 400 client-error
response — distinct from the 500 server error — before any storage step runs,
and the database is unchanged, for every fault-injection point. -/
theorem c8_invalid_key_rejected (fp : FailPoint) (db : DB) (user : String)
    (form : FormData) (now uuid : String)
    (hbad : form.idempotency_key.isEmpty = true ∨
      50 < form.idempotency_key.length ∨
      form.idempotency_key.toList.all
        (fun c => c.isAlphanum || c == '-') = false) :
    publish_newsletter_fp fp db user form now uuid =
      (db, .clientError e400Response) ∧
    e400Response.status = 400 ∧ e500Response.status = 500 ∧
    e400Response ≠ e500Response := by
  have hkey : ∃ e, idempotency_key_try_from form.idempotency_key = .error e := by
    unfold idempotency_key_try_from
    by_cases he : form.idempotency_key.isEmpty = true
    · exact ⟨_, if_pos he⟩
    · rw [if_neg he]
      by_cases hl : 50 < form.idempotency_key.length
      · exact ⟨_, if_pos hl⟩
      · rw [if_neg hl]
        have hall : form.idempotency_key.toList.all
            (fun c => c.isAlphanum || c == '-') = false := by
          rcases hbad with h | h | h
          · exact absurd h he
          · exact absurd h hl
          · exact h
        exact ⟨_, if_pos (by
          have := List.all_eq_false.mp hall
          simpa using this)⟩
  obtain ⟨e, he⟩ := hkey
  unfold publish_newsletter_fp
  rw [he]
  exact ⟨rfl, rfl, rfl, by decide⟩

/-- Witness for C8 at a key holding a disallowed character, over a database
that already has a subscriber, for the no-fault run. -/
theorem c8_invalid_key_rejected_witness :
    ((" bad key".isEmpty = true ∨ 50 < " bad key".length ∨
      " bad key".toList.all (fun c => c.isAlphanum || c == '-') = false) ∧
      True) ∧
    publish_newsletter_fp .noFail
      { idempotency := [], newsletter_issues := [], issue_delivery_queue := [],
        subscriptions := [{ email := "a@b.com", status := "confirmed" }] }
      "u" { title := "t", text_content := "x", html_content := "h",
            idempotency_key := " bad key" } "t0" "uuid-1" =
      ({ idempotency := [], newsletter_issues := [], issue_delivery_queue := [],
         subscriptions := [{ email := "a@b.com", status := "confirmed" }] },
        .clientError e400Response) :=
  ⟨⟨by decide, trivial⟩,
    (c8_invalid_key_rejected .noFail
      { idempotency := [], newsletter_issues := [], issue_delivery_queue := [],
        subscriptions := [{ email := "a@b.com", status := "confirmed" }] }
      "u" { title := "t", text_content := "x", html_content := "h",
            idempotency_key := " bad key" } "t0" "uuid-1" (by decide)).1⟩

/-- C9: the worker loop body never exits the loop on any attempt outcome:
EmptyQueue sleeps the 10-second idle interval, an error from the attempt
sleeps the shorter 1-second interval, TaskCompleted continues immediately,
so at every iteration of the trace the next step is another attempt. -/
theorem c9_worker_loop_never_exits
    (outcomes : Nat → Except String ExecutionOutcome) (n : Nat) :
    worker_trace outcomes n ≠ .exitLoop ∧
    (outcomes n = .ok .EmptyQueue →
      worker_trace outcomes n = .continueAfter 10) ∧
    (∀ e, outcomes n = .error e → worker_trace outcomes n = .continueAfter 1) ∧
    (outcomes n = .ok .TaskCompleted →
      worker_trace outcomes n = .continueAfter 0) ∧
    (1 : Nat) < 10 := by
  unfold worker_trace worker_loop_body
  refine ⟨?_, ?_, ?_, ?_, by norm_num⟩
  · cases h : outcomes n with
    | error e => simp
    | ok o => cases o <;> simp
  · intro h
    rw [h]
  · intro e h
    rw [h]
  · intro h
    rw [h]

/-- Witness for C9 on a concrete outcome sequence cycling through the three
outcomes. -/
theorem c9_worker_loop_never_exits_witness :
    worker_trace (fun k => if k % 3 = 0 then .ok .EmptyQueue
      else if k % 3 = 1 then .error "storage down"
      else .ok .TaskCompleted) 3 ≠ .exitLoop ∧
    ((fun k : Nat => if k % 3 = 0 then
        (.ok .EmptyQueue : Except String ExecutionOutcome)
      else if k % 3 = 1 then .error "storage down"
      else .ok .TaskCompleted) 3 = .ok .EmptyQueue →
      worker_trace (fun k => if k % 3 = 0 then .ok .EmptyQueue
        else if k % 3 = 1 then .error "storage down"
        else .ok .TaskCompleted) 3 = .continueAfter 10) ∧
    (∀ e, (fun k : Nat => if k % 3 = 0 then
        (.ok .EmptyQueue : Except String ExecutionOutcome)
      else if k % 3 = 1 then .error "storage down"
      else .ok .TaskCompleted) 3 = .error e →
      worker_trace (fun k => if k % 3 = 0 then .ok .EmptyQueue
        else if k % 3 = 1 then .error "storage down"
        else .ok .TaskCompleted) 3 = .continueAfter 1) ∧
    ((fun k : Nat => if k % 3 = 0 then
        (.ok .EmptyQueue : Except String ExecutionOutcome)
      else if k % 3 = 1 then .error "storage down"
      else .ok .TaskCompleted) 3 = .ok .TaskCompleted →
      worker_trace (fun k => if k % 3 = 0 then .ok .EmptyQueue
        else if k % 3 = 1 then .error "storage down"
        else .ok .TaskCompleted) 3 = .continueAfter 0) ∧
    (1 : Nat) < 10 :=
  c9_worker_loop_never_exits
    (fun k => if k % 3 = 0 then .ok .EmptyQueue
      else if k % 3 = 1 then .error "storage down"
      else .ok .TaskCompleted) 3

/-! ### Publish-path lemmas -/

lemma publishTxn_fields (db : DB) (user key now uuid : String) (form : FormData)
    (hclean : findIdem db user key = none) :
    (publishTxn db user key now uuid form).idempotency =
      db.idempotency ++ [completedRecord user key now redirectResponse] ∧
    (publishTxn db user key now uuid form).newsletter_issues =
      db.newsletter_issues ++ [issueRowOf uuid form now] ∧
    (publishTxn db user key now uuid form).issue_delivery_queue =
      db.issue_delivery_queue ++ confirmedTasks db uuid ∧
    (publishTxn db user key now uuid form).subscriptions = db.subscriptions := by
  simp only [publishTxn, insertIdemOnConflict_of_none now hclean,
    insert_newsletter_issue, enqueue_delivery_tasks, save_response, updateIdem,
    confirmedTasks, issueRowOf, completedRecord, reservedRecord]
  refine ⟨?_, ?_, ?_, ?_⟩
  · rw [List.map_append, map_ite_of_find?_none hclean]
    simp
  · simp
  · simp
  · simp

lemma findIdem_publishTxn (db : DB) (user key now uuid : String)
    (form : FormData) (hclean : findIdem db user key = none) :
    findIdem (publishTxn db user key now uuid form) user key =
      some (completedRecord user key now redirectResponse) := by
  unfold findIdem
  rw [(publishTxn_fields db user key now uuid form hclean).1]
  exact find?_append_last hclean (by simp [completedRecord])

lemma get_saved_response_publishTxn (db : DB) (user key now uuid : String)
    (form : FormData) (hclean : findIdem db user key = none) :
    get_saved_response (publishTxn db user key now uuid form) key user =
      .ok (some redirectResponse) := by
  have h := get_saved_response_of_found (publishTxn db user key now uuid form)
    user key user key now (toI16 redirectResponse.status)
    redirectResponse.headers redirectResponse.body
    (findIdem_publishTxn db user key now uuid form hclean)
    (by decide) (by decide) (by decide) (by decide) (by decide)
  rw [h]
  decide

lemma try_processing_publishTxn (db : DB) (user key now uuid now2 : String)
    (form : FormData) (hclean : findIdem db user key = none) :
    try_processing (publishTxn db user key now uuid form) key user now2 =
      .ok (.ReturnSavedResponse redirectResponse) := by
  rw [try_processing_of_some now2
    (findIdem_publishTxn db user key now uuid form hclean),
    get_saved_response_publishTxn db user key now uuid form hclean]

lemma publish_success (db : DB) (user : String) (form : FormData)
    (now uuid : String)
    (hkey : idempotency_key_try_from form.idempotency_key =
      .ok form.idempotency_key)
    (hclean : findIdem db user form.idempotency_key = none) :
    publish_newsletter db user form now uuid =
      (publishTxn db user form.idempotency_key now uuid form,
        .success redirectResponse) := by
  unfold publish_newsletter publish_newsletter_fp
  rw [hkey]
  dsimp only
  rw [try_processing_of_none now hclean]
  simp only [publishTxn, insertIdemOnConflict_of_none now hclean]
  rfl

lemma publish_replay (db : DB) (user : String) (form : FormData)
    (now uuid : String) (r : IdemRecord) (resp : HttpResponse)
    (hkey : idempotency_key_try_from form.idempotency_key =
      .ok form.idempotency_key)
    (hfound : findIdem db user form.idempotency_key = some r)
    (hget : get_saved_response db form.idempotency_key user = .ok (some resp)) :
    publish_newsletter db user form now uuid = (db, .success resp) := by
  unfold publish_newsletter publish_newsletter_fp
  rw [hkey]
  dsimp only
  rw [try_processing_of_some now hfound, hget]

/-- C1: two sequential publish requests with the same body and idempotency
key over a database with no record for that key create exactly one issue row
and exactly one batch of delivery tasks: the first request runs the
side-effecting path, the second is answered from the idempotency cache
(try_processing returns ReturnSavedResponse) leaving the database untouched,
and both requests receive the byte-identical success response. -/
theorem c1_sequential_idempotent_replay (db : DB) (user : String)
    (form : FormData) (now1 uuid1 now2 uuid2 : String)
    (hkey : idempotency_key_try_from form.idempotency_key =
      .ok form.idempotency_key)
    (hclean : findIdem db user form.idempotency_key = none) :
    (publish_newsletter db user form now1 uuid1).2 =
      .success redirectResponse ∧
    (publish_newsletter (publish_newsletter db user form now1 uuid1).1
      user form now2 uuid2).2 = .success redirectResponse ∧
    (publish_newsletter (publish_newsletter db user form now1 uuid1).1
      user form now2 uuid2).1 = (publish_newsletter db user form now1 uuid1).1 ∧
    (publish_newsletter db user form now1 uuid1).1.newsletter_issues =
      db.newsletter_issues ++ [issueRowOf uuid1 form now1] ∧
    (publish_newsletter db user form now1 uuid1).1.issue_delivery_queue =
      db.issue_delivery_queue ++ confirmedTasks db uuid1 ∧
    try_processing (publish_newsletter db user form now1 uuid1).1
      form.idempotency_key user now2 = .ok (.ReturnSavedResponse
        redirectResponse) := by
  have h1 := publish_success db user form now1 uuid1 hkey hclean
  have hfound := findIdem_publishTxn db user form.idempotency_key now1 uuid1
    form hclean
  have hget := get_saved_response_publishTxn db user form.idempotency_key
    now1 uuid1 form hclean
  have h2 := publish_replay
    (publishTxn db user form.idempotency_key now1 uuid1 form) user form
    now2 uuid2 _ redirectResponse hkey hfound hget
  have hfields := publishTxn_fields db user form.idempotency_key now1 uuid1
    form hclean
  rw [h1]
  refine ⟨rfl, ?_, ?_, hfields.2.1, hfields.2.2.1, ?_⟩
  · rw [h2]
  · rw [h2]
  · exact try_processing_publishTxn db user form.idempotency_key now1 uuid1
      now2 form hclean

/-- Witness for C1 on a concrete database with one confirmed subscriber. -/
theorem c1_sequential_idempotent_replay_witness :
    (idempotency_key_try_from formSample.idempotency_key =
        .ok formSample.idempotency_key ∧
      findIdem dbSample "u1" formSample.idempotency_key = none) ∧
    ((publish_newsletter dbSample "u1" formSample "t1" "id1").2 =
      .success redirectResponse ∧
    (publish_newsletter (publish_newsletter dbSample "u1" formSample
      "t1" "id1").1 "u1" formSample "t2" "id2").2 =
      .success redirectResponse ∧
    (publish_newsletter (publish_newsletter dbSample "u1" formSample
      "t1" "id1").1 "u1" formSample "t2" "id2").1 =
      (publish_newsletter dbSample "u1" formSample "t1" "id1").1 ∧
    (publish_newsletter dbSample "u1" formSample "t1" "id1").1.newsletter_issues
      = dbSample.newsletter_issues ++ [issueRowOf "id1" formSample "t1"] ∧
    (publish_newsletter dbSample "u1" formSample "t1"
        "id1").1.issue_delivery_queue =
      dbSample.issue_delivery_queue ++ confirmedTasks dbSample "id1" ∧
    try_processing (publish_newsletter dbSample "u1" formSample "t1" "id1").1
      formSample.idempotency_key "u1" "t2" =
      .ok (.ReturnSavedResponse redirectResponse)) :=
  ⟨⟨by decide, by decide⟩,
    c1_sequential_idempotent_replay dbSample "u1" formSample "t1" "id1"
      "t2" "id2" (by decide) (by decide)⟩

/-- C3: if the issue insert, the task enqueue, or the response save fails
after the reservation but before the commit, the transaction is dropped and
nothing is visible afterwards — no issue row, no task row, no idempotency
record at all — and a subsequent request with the same key re-reserves and
re-executes cleanly. -/
theorem c3_partial_failure_rolls_back (db : DB) (user : String)
    (form : FormData) (now uuid now2 uuid2 : String) (fp : FailPoint)
    (hkey : idempotency_key_try_from form.idempotency_key =
      .ok form.idempotency_key)
    (hclean : findIdem db user form.idempotency_key = none)
    (hfp : fp = .atIssueInsert ∨ fp = .atEnqueue ∨ fp = .atSaveResponse) :
    publish_newsletter_fp fp db user form now uuid =
      (db, .serverError e500Response) ∧
    try_processing db form.idempotency_key user now2 = .ok (.StartProcessing
      { db with idempotency :=
          db.idempotency ++ [reservedRecord user form.idempotency_key now2] }) ∧
    publish_newsletter db user form now2 uuid2 =
      (publishTxn db user form.idempotency_key now2 uuid2 form,
        .success redirectResponse) := by
  refine ⟨?_, try_processing_of_none now2 hclean,
    publish_success db user form now2 uuid2 hkey hclean⟩
  unfold publish_newsletter_fp
  rw [hkey]
  dsimp only
  rw [try_processing_of_none now hclean]
  rcases hfp with h | h | h <;> subst h <;> rfl

/-- Witness for C3 at the enqueue fault point on a concrete database. -/
theorem c3_partial_failure_rolls_back_witness :
    (idempotency_key_try_from formSample.idempotency_key =
        .ok formSample.idempotency_key ∧
      findIdem dbSample "u1" formSample.idempotency_key = none ∧
      (FailPoint.atEnqueue = FailPoint.atIssueInsert ∨
        FailPoint.atEnqueue = FailPoint.atEnqueue ∨
        FailPoint.atEnqueue = FailPoint.atSaveResponse)) ∧
    (publish_newsletter_fp .atEnqueue dbSample "u1" formSample "t1" "id1" =
      (dbSample, .serverError e500Response) ∧
    try_processing dbSample formSample.idempotency_key "u1" "t2" =
      .ok (.StartProcessing
        { dbSample with idempotency := dbSample.idempotency ++
            [reservedRecord "u1" formSample.idempotency_key "t2"] }) ∧
    publish_newsletter dbSample "u1" formSample "t2" "id2" =
      (publishTxn dbSample "u1" formSample.idempotency_key "t2" "id2"
        formSample, .success redirectResponse)) :=
  ⟨⟨by decide, by decide, Or.inr (Or.inl rfl)⟩,
    c3_partial_failure_rolls_back dbSample "u1" formSample "t1" "id1"
      "t2" "id2" .atEnqueue (by decide) (by decide) (Or.inr (Or.inl rfl))⟩

/-! ### Worker lemmas -/

lemma try_execute_task_empty (parseOk sendOk : String → Bool) (db : DB)
    (hq : db.issue_delivery_queue = []) :
    try_execute_task parseOk sendOk db =
      { db := db, sent := [], logs := [], outcome := .ok .EmptyQueue } := by
  unfold try_execute_task dequeue_task
  rw [hq]

lemma try_execute_task_cons_ok (parseOk sendOk : String → Bool) (db : DB)
    (t : QueueRow) (rest : List QueueRow)
    (hq : db.issue_delivery_queue = t :: rest)
    (hiss : parseOk t.subscriber_email = true →
      ∃ i, get_issue { db with issue_delivery_queue := rest }
        t.newsletter_issue_uuid = .ok i) :
    (try_execute_task parseOk sendOk db).db =
      { db with issue_delivery_queue := rest } ∧
    (try_execute_task parseOk sendOk db).outcome = .ok .TaskCompleted := by
  unfold try_execute_task dequeue_task
  rw [hq]
  dsimp only
  by_cases hp : parseOk t.subscriber_email = true
  · obtain ⟨i, hi⟩ := hiss hp
    rw [if_pos hp, hi]
    by_cases hs : sendOk t.subscriber_email = true
    · rw [if_pos hs]
      exact ⟨rfl, rfl⟩
    · rw [if_neg hs]
      exact ⟨rfl, rfl⟩
  · rw [if_neg hp]
    exact ⟨rfl, rfl⟩

lemma try_execute_task_queue_sublist (parseOk sendOk : String → Bool)
    (db : DB) :
    (try_execute_task parseOk sendOk db).db.issue_delivery_queue.Sublist
      db.issue_delivery_queue := by
  unfold try_execute_task dequeue_task
  cases hq : db.issue_delivery_queue with
  | nil =>
    dsimp only
    rw [hq]
  | cons t rest =>
    dsimp only
    by_cases hp : parseOk t.subscriber_email = true
    · rw [if_pos hp]
      cases hgi : get_issue { db with issue_delivery_queue := rest }
          t.newsletter_issue_uuid with
      | error e => exact (List.Sublist.refl rest).cons t
      | ok i =>
        by_cases hs : sendOk t.subscriber_email = true
        · rw [if_pos hs]
          exact (List.Sublist.refl rest).cons t
        · rw [if_neg hs]
          exact (List.Sublist.refl rest).cons t
    · rw [if_neg hp]
      exact (List.Sublist.refl rest).cons t

lemma run_attempts_queue_sublist (parseOk sendOk : String → Bool) :
    ∀ (n : Nat) (db : DB),
    ((run_attempts parseOk sendOk n db).1).issue_delivery_queue.Sublist
      db.issue_delivery_queue := by
  intro n
  induction n with
  | zero => intro db; exact List.Sublist.refl _
  | succ n ih =>
    intro db
    simp only [run_attempts]
    exact (ih _).trans (try_execute_task_queue_sublist parseOk sendOk db)

lemma try_execute_task_send_irrelevant (parseOk s1 s2 : String → Bool)
    (db : DB) :
    (try_execute_task parseOk s1 db).db = (try_execute_task parseOk s2 db).db ∧
    (try_execute_task parseOk s1 db).outcome =
      (try_execute_task parseOk s2 db).outcome := by
  unfold try_execute_task dequeue_task
  cases hq : db.issue_delivery_queue with
  | nil => exact ⟨rfl, rfl⟩
  | cons t rest =>
    dsimp only
    by_cases hp : parseOk t.subscriber_email = true
    · simp only [if_pos hp]
      cases hgi : get_issue { db with issue_delivery_queue := rest }
          t.newsletter_issue_uuid with
      | error e => exact ⟨rfl, rfl⟩
      | ok i =>
        by_cases h1 : s1 t.subscriber_email = true <;>
          by_cases h2 : s2 t.subscriber_email = true <;>
          simp [h1, h2]
    · rw [if_neg hp, if_neg hp]
      exact ⟨rfl, rfl⟩

lemma run_attempts_succ (parseOk sendOk : String → Bool) (n : Nat) (db : DB) :
    run_attempts parseOk sendOk (n + 1) db =
      ((run_attempts parseOk sendOk n
          (try_execute_task parseOk sendOk db).db).1,
        (try_execute_task parseOk sendOk db).outcome ::
          (run_attempts parseOk sendOk n
            (try_execute_task parseOk sendOk db).db).2) := rfl

lemma run_attempts_drain (parseOk sendOk : String → Bool) :
    ∀ (q : List QueueRow) (db : DB), db.issue_delivery_queue = q →
    (∀ t ∈ q, (db.newsletter_issues.find?
        (fun i => i.newsletter_issue_uuid == t.newsletter_issue_uuid)).isSome) →
    run_attempts parseOk sendOk (q.length + 1) db =
      ({ db with issue_delivery_queue := [] },
        List.replicate q.length (.ok .TaskCompleted) ++ [.ok .EmptyQueue]) := by
  intro q
  induction q with
  | nil =>
    intro db hq _
    obtain ⟨a, b, c, d⟩ := db
    dsimp only at hq
    subst hq
    simp [run_attempts, try_execute_task, dequeue_task]
  | cons t rest ih =>
    intro db hq hiss
    have hiss1 : parseOk t.subscriber_email = true →
        ∃ i, get_issue { db with issue_delivery_queue := rest }
          t.newsletter_issue_uuid = .ok i := by
      intro _
      obtain ⟨i, hi⟩ := Option.isSome_iff_exists.mp (hiss t (by simp))
      exact ⟨i, by unfold get_issue; rw [hi]⟩
    have hcons := try_execute_task_cons_ok parseOk sendOk db t rest hq hiss1
    have hrec := ih { db with issue_delivery_queue := rest } rfl
      (fun t' ht' => hiss t' (List.mem_cons_of_mem _ ht'))
    show run_attempts parseOk sendOk (rest.length + 1 + 1) db = _
    rw [run_attempts_succ, hcons.1, hcons.2, hrec]
    simp [List.replicate_succ]

/-- C6: publishing with K confirmed subscribers enqueues exactly one delivery
task per confirmed subscriber (K tasks, none for pending subscribers) in the
committed transaction, and K + 1 subsequent worker attempts return
TaskCompleted exactly K times followed by EmptyQueue, leaving the
issue_delivery_queue table empty. -/
theorem c6_publish_then_drain (db : DB) (user : String) (form : FormData)
    (now uuid : String) (parseOk sendOk : String → Bool)
    (hkey : idempotency_key_try_from form.idempotency_key =
      .ok form.idempotency_key)
    (hclean : findIdem db user form.idempotency_key = none)
    (hq0 : db.issue_delivery_queue = []) :
    (publish_newsletter db user form now uuid).2 = .success redirectResponse ∧
    (publish_newsletter db user form now uuid).1.issue_delivery_queue =
      confirmedTasks db uuid ∧
    (confirmedTasks db uuid).length =
      (db.subscriptions.filter (fun s => s.status == "confirmed")).length ∧
    run_attempts parseOk sendOk ((confirmedTasks db uuid).length + 1)
      (publish_newsletter db user form now uuid).1 =
      ({ (publish_newsletter db user form now uuid).1 with
          issue_delivery_queue := [] },
        List.replicate (confirmedTasks db uuid).length (.ok .TaskCompleted) ++
          [.ok .EmptyQueue]) := by
  have hpub := publish_success db user form now uuid hkey hclean
  have hfields := publishTxn_fields db user form.idempotency_key now uuid
    form hclean
  have hqueue : (publish_newsletter db user form now uuid).1.issue_delivery_queue
      = confirmedTasks db uuid := by
    rw [hpub]
    dsimp only
    rw [hfields.2.2.1, hq0]
    simp
  refine ⟨by rw [hpub], hqueue, by simp [confirmedTasks], ?_⟩
  apply run_attempts_drain parseOk sendOk (confirmedTasks db uuid)
    (publish_newsletter db user form now uuid).1 hqueue
  intro t ht
  rw [List.find?_isSome]
  obtain ⟨s, _, rfl⟩ := List.mem_map.mp ht
  refine ⟨issueRowOf uuid form now, ?_, by simp [issueRowOf]⟩
  rw [hpub]
  dsimp only
  rw [hfields.2.1]
  simp

/-- Witness for C6 on a concrete database with one confirmed subscriber, a
parser accepting its address, and a failing email client. -/
theorem c6_publish_then_drain_witness :
    (idempotency_key_try_from formSample.idempotency_key =
        .ok formSample.idempotency_key ∧
      findIdem dbSample "u1" formSample.idempotency_key = none ∧
      dbSample.issue_delivery_queue = []) ∧
    ((publish_newsletter dbSample "u1" formSample "t1" "id1").2 =
      .success redirectResponse ∧
    (publish_newsletter dbSample "u1" formSample "t1"
        "id1").1.issue_delivery_queue = confirmedTasks dbSample "id1" ∧
    (confirmedTasks dbSample "id1").length =
      (dbSample.subscriptions.filter (fun s => s.status == "confirmed")).length ∧
    run_attempts (fun e => e == "a@b.com") (fun _ => false)
      ((confirmedTasks dbSample "id1").length + 1)
      (publish_newsletter dbSample "u1" formSample "t1" "id1").1 =
      ({ (publish_newsletter dbSample "u1" formSample "t1" "id1").1 with
          issue_delivery_queue := [] },
        List.replicate (confirmedTasks dbSample "id1").length
          (.ok .TaskCompleted) ++ [.ok .EmptyQueue])) :=
  ⟨⟨by decide, by decide, by decide⟩,
    c6_publish_then_drain dbSample "u1" formSample "t1" "id1"
      (fun e => e == "a@b.com") (fun _ => false)
      (by decide) (by decide) (by decide)⟩

/-- C7: a successfully dequeued task is deleted from the queue as part of the
claim, and the attempt returns TaskCompleted whether the recipient address
fails to parse or the email send fails — the send outcome changes neither the
database nor the returned outcome — and the task is never re-inserted: the
queue afterwards is a sublist of the queue before. -/
theorem c7_dequeued_task_dropped (parseOk sendOk sendOk2 : String → Bool)
    (db : DB) (t : QueueRow) (rest : List QueueRow)
    (hq : db.issue_delivery_queue = t :: rest) :
    (try_execute_task parseOk sendOk db).db.issue_delivery_queue = rest ∧
    (parseOk t.subscriber_email = false →
      (try_execute_task parseOk sendOk db).outcome = .ok .TaskCompleted ∧
      (try_execute_task parseOk sendOk db).sent = []) ∧
    (parseOk t.subscriber_email = true →
      (∃ i, get_issue { db with issue_delivery_queue := rest }
        t.newsletter_issue_uuid = .ok i) →
      (try_execute_task parseOk sendOk db).outcome = .ok .TaskCompleted) ∧
    (try_execute_task parseOk sendOk2 db).db =
      (try_execute_task parseOk sendOk db).db ∧
    (try_execute_task parseOk sendOk2 db).outcome =
      (try_execute_task parseOk sendOk db).outcome ∧
    (try_execute_task parseOk sendOk db).db.issue_delivery_queue.Sublist
      db.issue_delivery_queue := by
  refine ⟨?_, ?_, ?_,
    (try_execute_task_send_irrelevant parseOk sendOk2 sendOk db).1,
    (try_execute_task_send_irrelevant parseOk sendOk2 sendOk db).2,
    try_execute_task_queue_sublist parseOk sendOk db⟩
  · unfold try_execute_task dequeue_task
    rw [hq]
    dsimp only
    by_cases hp : parseOk t.subscriber_email = true
    · rw [if_pos hp]
      cases hgi : get_issue { db with issue_delivery_queue := rest }
          t.newsletter_issue_uuid with
      | error e => rfl
      | ok i =>
        by_cases hs : sendOk t.subscriber_email = true
        · rw [if_pos hs]
        · rw [if_neg hs]
    · rw [if_neg hp]
  · intro hp
    unfold try_execute_task dequeue_task
    rw [hq]
    dsimp only
    rw [if_neg (by simp [hp])]
    exact ⟨rfl, rfl⟩
  · intro hp hiss
    exact (try_execute_task_cons_ok parseOk sendOk db t rest hq
      (fun _ => hiss)).2

/-- Witness for C7 on a concrete queue whose single task has an address the
parser rejects. -/
theorem c7_dequeued_task_dropped_witness :
    dbQueued.issue_delivery_queue =
      ({ newsletter_issue_uuid := "id1",
         subscriber_email := "bad address" } : QueueRow) :: [] ∧
    ((try_execute_task (fun e => e == "a@b.com") (fun _ => true)
        dbQueued).db.issue_delivery_queue = [] ∧
    (((fun e : String => e == "a@b.com") "bad address") = false →
      (try_execute_task (fun e => e == "a@b.com") (fun _ => true)
        dbQueued).outcome = .ok .TaskCompleted ∧
      (try_execute_task (fun e => e == "a@b.com") (fun _ => true)
        dbQueued).sent = []) ∧
    (((fun e : String => e == "a@b.com") "bad address") = true →
      (∃ i, get_issue { dbQueued with issue_delivery_queue := [] }
        "id1" = .ok i) →
      (try_execute_task (fun e => e == "a@b.com") (fun _ => true)
        dbQueued).outcome = .ok .TaskCompleted) ∧
    (try_execute_task (fun e => e == "a@b.com") (fun _ => false) dbQueued).db =
      (try_execute_task (fun e => e == "a@b.com") (fun _ => true) dbQueued).db ∧
    (try_execute_task (fun e => e == "a@b.com") (fun _ => false)
        dbQueued).outcome =
      (try_execute_task (fun e => e == "a@b.com") (fun _ => true)
        dbQueued).outcome ∧
    (try_execute_task (fun e => e == "a@b.com") (fun _ => true)
      dbQueued).db.issue_delivery_queue.Sublist
        dbQueued.issue_delivery_queue) :=
  ⟨by decide,
    c7_dequeued_task_dropped (fun e => e == "a@b.com") (fun _ => true)
      (fun _ => false) dbQueued
      { newsletter_issue_uuid := "id1", subscriber_email := "bad address" }
      [] (by decide)⟩

/-- C10: the dequeue delete runs directly on the pool, outside the rest of
the attempt: when the parent-issue lookup of a dequeued task fails, the
attempt returns an error instead of TaskCompleted, yet the task stays
deleted from the queue, no send is attempted, and no later sequence of
attempts can make the task reappear. -/
theorem c10_error_after_dequeue_loses_task (parseOk sendOk : String → Bool)
    (db : DB) (t : QueueRow) (rest : List QueueRow)
    (hq : db.issue_delivery_queue = t :: rest)
    (hparse : parseOk t.subscriber_email = true)
    (hmiss : db.newsletter_issues.find?
      (fun i => i.newsletter_issue_uuid == t.newsletter_issue_uuid) = none) :
    (try_execute_task parseOk sendOk db).outcome =
      .error "no rows returned by a query that expected at least one row" ∧
    (try_execute_task parseOk sendOk db).outcome ≠ .ok .TaskCompleted ∧
    (try_execute_task parseOk sendOk db).db =
      { db with issue_delivery_queue := rest } ∧
    (try_execute_task parseOk sendOk db).sent = [] ∧
    (∀ n, ((run_attempts parseOk sendOk n
        (try_execute_task parseOk sendOk db).db).1).issue_delivery_queue.Sublist
      rest) := by
  have hget : get_issue { db with issue_delivery_queue := rest }
      t.newsletter_issue_uuid =
      .error "no rows returned by a query that expected at least one row" := by
    unfold get_issue
    rw [hmiss]
  have hstep : try_execute_task parseOk sendOk db =
      { db := { db with issue_delivery_queue := rest }, sent := [], logs := [],
        outcome :=
          .error "no rows returned by a query that expected at least one row" } := by
    unfold try_execute_task dequeue_task
    rw [hq]
    dsimp only
    rw [if_pos hparse, hget]
  rw [hstep]
  refine ⟨rfl, by simp, rfl, rfl, ?_⟩
  intro n
  exact run_attempts_queue_sublist parseOk sendOk n _

/-- Witness for C10 on a concrete queue whose single task points at a missing
issue. -/
theorem c10_error_after_dequeue_loses_task_witness :
    (dbOrphan.issue_delivery_queue =
      ({ newsletter_issue_uuid := "ghost",
         subscriber_email := "a@b.com" } : QueueRow) :: [] ∧
      ((fun _ : String => true) "a@b.com") = true ∧
      dbOrphan.newsletter_issues.find?
        (fun i => i.newsletter_issue_uuid == "ghost") = none) ∧
    ((try_execute_task (fun _ => true) (fun _ => true) dbOrphan).outcome =
      .error "no rows returned by a query that expected at least one row" ∧
    (try_execute_task (fun _ => true) (fun _ => true) dbOrphan).outcome ≠
      .ok .TaskCompleted ∧
    (try_execute_task (fun _ => true) (fun _ => true) dbOrphan).db =
      { dbOrphan with issue_delivery_queue := [] } ∧
    (try_execute_task (fun _ => true) (fun _ => true) dbOrphan).sent = [] ∧
    (∀ n, ((run_attempts (fun _ => true) (fun _ => true) n
        (try_execute_task (fun _ => true) (fun _ => true)
          dbOrphan).db).1).issue_delivery_queue.Sublist [])) :=
  ⟨⟨by decide, by decide, by decide⟩,
    c10_error_after_dequeue_loses_task (fun _ => true) (fun _ => true)
      dbOrphan
      { newsletter_issue_uuid := "ghost", subscriber_email := "a@b.com" }
      [] (by decide) (by decide) (by decide)⟩

/-! ### Concurrency invariant lemmas -/

lemma cinv_init (user key now uuid : String) (form : FormData) (db0 : DB)
    (N : Nat) : CInv user key now uuid form db0 (initSys N db0) := by
  refine ⟨fun _ => ⟨rfl, fun i r h => ?_⟩, fun c hc => ?_, fun i t h => ?_,
    fun i r h => ?_⟩
  · exact ReqState.noConfusion h
  · exact Option.noConfusion hc
  · exact ReqState.noConfusion h
  · exact ReqState.noConfusion h

lemma cinv_step (user key now uuid : String) (form : FormData) (db0 : DB)
    {N : Nat} {s s' : CSys N}
    (hclean : findIdem db0 user key = none)
    (inv : CInv user key now uuid form db0 s)
    (hstep : CStep user key now uuid form s s') :
    CInv user key now uuid form db0 s' := by
  obtain ⟨inv1, inv2, inv3, inv4⟩ := inv
  cases hstep with
  | reserve i hstart hnohold hnorec =>
    have hcnone : s.committer = none := by
      cases hc : s.committer with
      | none => rfl
      | some c =>
        exfalso
        have h2 := (inv2 c hc).1
        rw [h2, findIdem_publishTxn db0 user key now uuid form hclean]
          at hnorec
        exact Option.noConfusion hnorec
    have hdb : s.db = db0 := (inv1 hcnone).1
    refine ⟨fun _ => ⟨hdb, fun j r hj => ?_⟩, fun c hc => ?_,
      fun j t hj => ?_, fun j r hj => ?_⟩
    · dsimp only at hj
      by_cases hji : j = i
      · subst hji
        rw [Function.update_same] at hj
        exact ReqState.noConfusion hj
      · rw [Function.update_noteq hji] at hj
        exact (inv1 hcnone).2 j r hj
    · dsimp only at hc
      rw [hcnone] at hc
      exact Option.noConfusion hc
    · dsimp only at hj ⊢
      by_cases hji : j = i
      · subst hji
        rw [Function.update_same] at hj
        refine ⟨by rw [← (ReqState.holding.inj hj), hdb], hcnone,
          fun j' t' hj' => ?_⟩
        by_cases hj'i : j' = j
        · exact hj'i
        · rw [Function.update_noteq hj'i] at hj'
          exact absurd hj' (hnohold j' t')
      · rw [Function.update_noteq hji] at hj
        exact absurd hj (hnohold j t)
    · dsimp only at hj
      by_cases hji : j = i
      · subst hji
        rw [Function.update_same] at hj
        exact ReqState.noConfusion hj
      · rw [Function.update_noteq hji] at hj
        exact absurd hj ((inv1 hcnone).2 j r)
  | commit i txn hhold =>
    have h3 := inv3 i txn hhold
    refine ⟨fun hc => Option.noConfusion hc, fun c hc => ?_,
      fun j t hj => ?_, fun j r hj => ?_⟩
    · dsimp only at hc ⊢
      have hci : c = i := (Option.some.inj hc).symm
      subst hci
      refine ⟨h3.1 ▸ rfl, ?_⟩
      rw [Function.update_same]
    · dsimp only at hj
      by_cases hji : j = i
      · subst hji
        rw [Function.update_same] at hj
        exact ReqState.noConfusion hj
      · rw [Function.update_noteq hji] at hj
        exact absurd (h3.2.2 j t hj) hji
    · dsimp only at hj ⊢
      by_cases hji : j = i
      · subst hji
        rw [Function.update_same] at hj
        exact ⟨(ReqState.done.inj hj).symm, rfl⟩
      · rw [Function.update_noteq hji] at hj
        exact absurd hj ((inv1 h3.2.1).2 j r)
  | rollback i txn hhold =>
    have h3 := inv3 i txn hhold
    refine ⟨fun hc => ⟨(inv1 hc).1, fun j r hj => ?_⟩, fun c hc => ?_,
      fun j t hj => ?_, fun j r hj => ?_⟩
    · dsimp only at hj
      by_cases hji : j = i
      · subst hji
        rw [Function.update_same] at hj
        exact ReqState.noConfusion hj
      · rw [Function.update_noteq hji] at hj
        exact (inv1 hc).2 j r hj
    · dsimp only at hc
      rw [h3.2.1] at hc
      exact Option.noConfusion hc
    · dsimp only at hj
      by_cases hji : j = i
      · subst hji
        rw [Function.update_same] at hj
        exact ReqState.noConfusion hj
      · rw [Function.update_noteq hji] at hj
        exact absurd (h3.2.2 j t hj) hji
    · dsimp only at hj
      by_cases hji : j = i
      · subst hji
        rw [Function.update_same] at hj
        exact ReqState.noConfusion hj
      · rw [Function.update_noteq hji] at hj
        exact absurd hj ((inv1 h3.2.1).2 j r)
  | replay i resp hstart hget =>
    have hcsome : ∃ c, s.committer = some c := by
      cases hc : s.committer with
      | some c => exact ⟨c, rfl⟩
      | none =>
        exfalso
        have hdb := (inv1 hc).1
        rw [hdb] at hget
        unfold get_saved_response at hget
        rw [hclean] at hget
        exact Option.noConfusion (Except.ok.inj hget)
    obtain ⟨c, hc⟩ := hcsome
    have h2 := inv2 c hc
    have hresp : resp = redirectResponse := by
      have hgp := get_saved_response_publishTxn db0 user key now uuid form
        hclean
      rw [h2.1] at hget
      rw [hget] at hgp
      exact Option.some.inj (Except.ok.inj hgp)
    have hci : c ≠ i := by
      intro he
      rw [he, hstart] at h2
      exact ReqState.noConfusion h2.2
    refine ⟨fun hcn => ?_, fun c' hc' => ?_, fun j t hj => ?_,
      fun j r hj => ?_⟩
    · dsimp only at hcn
      rw [hcn] at hc
      exact Option.noConfusion hc
    · dsimp only at hc' ⊢
      have hcc : c' = c := by
        rw [hc] at hc'
        exact (Option.some.inj hc').symm
      subst hcc
      refine ⟨h2.1, ?_⟩
      rw [Function.update_noteq hci]
      exact h2.2
    · dsimp only at hj
      by_cases hji : j = i
      · subst hji
        rw [Function.update_same] at hj
        exact ReqState.noConfusion hj
      · rw [Function.update_noteq hji] at hj
        have := (inv3 j t hj).2.1
        rw [this] at hc
        exact Option.noConfusion hc
    · dsimp only at hj ⊢
      by_cases hji : j = i
      · subst hji
        rw [Function.update_same] at hj
        exact ⟨(ReqState.done.inj hj).symm.trans hresp, by rw [hc]; rfl⟩
      · rw [Function.update_noteq hji] at hj
        exact ⟨(inv4 j r hj).1, by rw [hc]; rfl⟩
  | lookupFail i hstart hrec hget =>
    exfalso
    have hcsome : ∃ c, s.committer = some c := by
      cases hc : s.committer with
      | some c => exact ⟨c, rfl⟩
      | none =>
        exfalso
        have hdb := (inv1 hc).1
        rw [hdb] at hrec
        unfold findIdem at hrec
        unfold findIdem at hclean
        rw [hclean] at hrec
        exact Bool.noConfusion hrec
    obtain ⟨c, hc⟩ := hcsome
    have h2 := inv2 c hc
    have hgp := get_saved_response_publishTxn db0 user key now uuid form hclean
    rw [← h2.1] at hgp
    exact hget redirectResponse hgp

lemma cinv_reaches (user key now uuid : String) (form : FormData) (db0 : DB)
    {N : Nat} {s : CSys N}
    (hclean : findIdem db0 user key = none)
    (hreach : CReaches user key now uuid form (initSys N db0) s) :
    CInv user key now uuid form db0 s := by
  unfold CReaches at hreach
  induction hreach with
  | refl => exact cinv_init user key now uuid form db0 N
  | tail hab hbc ih =>
    exact cinv_step user key now uuid form db0 hclean ih hbc

/-- C2: for N concurrent publish requests sharing one (user_id, key) over a
database with no record for that key — the unique constraint with
ON CONFLICT DO NOTHING being the sole concurrency guard of the model — any
execution in which every request finishes with a response has exactly one
request that committed the side-effecting transaction; every request,
committer and replayers alike, holds the byte-identical success response,
and the final database holds exactly one issue row, one batch of delivery
tasks, and one completed idempotency record. -/
theorem c2_concurrent_single_execution (N : Nat) (db0 : DB)
    (user key now uuid : String) (form : FormData) (hN : 0 < N)
    (hclean : findIdem db0 user key = none) (s : CSys N)
    (hreach : CReaches user key now uuid form (initSys N db0) s)
    (hdone : ∀ i, ∃ r, s.procs i = .done r) :
    (∃! c : Fin N, s.committer = some c) ∧
    (∀ i, s.procs i = .done redirectResponse) ∧
    s.db.newsletter_issues = db0.newsletter_issues ++ [issueRowOf uuid form now] ∧
    s.db.issue_delivery_queue = db0.issue_delivery_queue ++ confirmedTasks db0 uuid ∧
    s.db.idempotency =
      db0.idempotency ++ [completedRecord user key now redirectResponse] := by
  have inv := cinv_reaches user key now uuid form db0 hclean hreach
  obtain ⟨r0, h0⟩ := hdone ⟨0, hN⟩
  have hsome : s.committer.isSome = true := (inv.2.2.2 _ r0 h0).2
  obtain ⟨c, hc⟩ := Option.isSome_iff_exists.mp hsome
  have h2 := inv.2.1 c hc
  have hfields := publishTxn_fields db0 user key now uuid form hclean
  refine ⟨⟨c, hc, fun y hy => ?_⟩, fun i => ?_, ?_, ?_, ?_⟩
  · rw [hc] at hy
    exact (Option.some.inj hy).symm
  · obtain ⟨r, hr⟩ := hdone i
    rw [hr, (inv.2.2.2 i r hr).1]
  · rw [h2.1]
    exact hfields.2.1
  · rw [h2.1]
    exact hfields.2.2.1
  · rw [h2.1]
    exact hfields.1

/-- Witness for C2: one request over the sample database reserves and then
commits; the resulting final state satisfies every conclusion. -/
theorem c2_concurrent_single_execution_witness :
    (0 < 1 ∧ findIdem dbSample "u1" "key-1" = none ∧
      CReaches "u1" "key-1" "t1" "id1" formSample (initSys 1 dbSample)
        { db := publishTxn dbSample "u1" "key-1" "t1" "id1" formSample,
          procs := Function.update
            (Function.update (fun _ => ReqState.start) 0
              (ReqState.holding
                (publishTxn dbSample "u1" "key-1" "t1" "id1" formSample))) 0
            (ReqState.done redirectResponse),
          committer := some 0 } ∧
      (∀ i : Fin 1, ∃ r,
        ({ db := publishTxn dbSample "u1" "key-1" "t1" "id1" formSample,
           procs := Function.update
             (Function.update (fun _ => ReqState.start) 0
               (ReqState.holding
                 (publishTxn dbSample "u1" "key-1" "t1" "id1" formSample))) 0
             (ReqState.done redirectResponse),
           committer := some 0 } : CSys 1).procs i = .done r)) ∧
    ((∃! c : Fin 1,
      ({ db := publishTxn dbSample "u1" "key-1" "t1" "id1" formSample,
         procs := Function.update
           (Function.update (fun _ => ReqState.start) 0
             (ReqState.holding
               (publishTxn dbSample "u1" "key-1" "t1" "id1" formSample))) 0
           (ReqState.done redirectResponse),
         committer := some 0 } : CSys 1).committer = some c) ∧
    (∀ i : Fin 1,
      ({ db := publishTxn dbSample "u1" "key-1" "t1" "id1" formSample,
         procs := Function.update
           (Function.update (fun _ => ReqState.start) 0
             (ReqState.holding
               (publishTxn dbSample "u1" "key-1" "t1" "id1" formSample))) 0
           (ReqState.done redirectResponse),
         committer := some 0 } : CSys 1).procs i = .done redirectResponse) ∧
    (publishTxn dbSample "u1" "key-1" "t1" "id1" formSample).newsletter_issues
      = dbSample.newsletter_issues ++ [issueRowOf "id1" formSample "t1"] ∧
    (publishTxn dbSample "u1" "key-1" "t1" "id1"
        formSample).issue_delivery_queue =
      dbSample.issue_delivery_queue ++ confirmedTasks dbSample "id1" ∧
    (publishTxn dbSample "u1" "key-1" "t1" "id1" formSample).idempotency =
      dbSample.idempotency ++
        [completedRecord "u1" "key-1" "t1" redirectResponse]) :=
  have hreach : CReaches "u1" "key-1" "t1" "id1" formSample
      (initSys 1 dbSample)
      { db := publishTxn dbSample "u1" "key-1" "t1" "id1" formSample,
        procs := Function.update
          (Function.update (fun _ => ReqState.start) 0
            (ReqState.holding
              (publishTxn dbSample "u1" "key-1" "t1" "id1" formSample))) 0
          (ReqState.done redirectResponse),
        committer := some 0 } :=
    Relation.ReflTransGen.tail
      (Relation.ReflTransGen.single
        (CStep.reserve (initSys 1 dbSample) 0 rfl
          (fun j t h => ReqState.noConfusion h) (by decide)))
      (CStep.commit _ 0 _ rfl)
  have hdone : ∀ i : Fin 1, ∃ r,
      ({ db := publishTxn dbSample "u1" "key-1" "t1" "id1" formSample,
         procs := Function.update
           (Function.update (fun _ => ReqState.start) 0
             (ReqState.holding
               (publishTxn dbSample "u1" "key-1" "t1" "id1" formSample))) 0
           (ReqState.done redirectResponse),
         committer := some 0 } : CSys 1).procs i = .done r := by
    intro i
    fin_cases i
    exact ⟨redirectResponse, rfl⟩
  ⟨⟨by decide, by decide, hreach, hdone⟩,
    c2_concurrent_single_execution 1 dbSample "u1" "key-1" "t1" "id1"
      formSample (by decide) (by decide) _ hreach hdone⟩

end Newzletter
